import Mathlib

/-!
Verification of the AirTracker backend core (src/dist/services/tracker.js)
against its natural-language specification.  The JavaScript functions are
shallowly embedded as Lean definitions: JS numbers are modelled as rationals,
nullable values as `Option`, the `alt_baro` field (number or the literal
string sentinel) as an inductive type, and the database tables as explicit
lists passed in and out.
-/

namespace AirTracker

/-! ## String helpers -/

/-- JavaScript's `toLowerCase()` restricted to ASCII, written so that it
reduces by computation: lower-case every character of the string. -/
def strLower (s : String) : String := ⟨s.data.map Char.toLower⟩

/-- JavaScript's `substring(0, n)`: the first `n` characters of a string
(the whole string when it is shorter). -/
def strTake (s : String) (n : Nat) : String := ⟨s.data.take n⟩

/-! ## Classifier -/

/-- The fixed list of Russian ICAO24 hex prefixes (`RUSSIAN_ICAO_PREFIXES`
in tracker.js): `140` through `157` in lowercase hex. -/
def RUSSIAN_ICAO_PREFIXES : List String :=
  ["140", "141", "142", "143", "144", "145", "146", "147",
   "148", "149", "14a", "14b", "14c", "14d", "14e", "14f",
   "150", "151", "152", "153", "154", "155", "156", "157"]

/-- `isRussianAircraft(icao24)` from tracker.js: a falsy identifier
(absent or empty string) yields `false`; otherwise the first 3 characters
of the lower-cased identifier are looked up in `RUSSIAN_ICAO_PREFIXES`. -/
def isRussianAircraft (icao24 : Option String) : Bool :=
  match icao24 with
  | none => false
  | some s =>
    if s = "" then false
    else decide ((strTake (strLower s) 3) ∈ RUSSIAN_ICAO_PREFIXES)

/-- One entry of the optional military dataset file: an object with an
optional `hex` field. -/
structure MilitaryItem where
  hex : Option String
deriving DecidableEq

/-- The start-up loading of `militaryHexCodes` in tracker.js.  The argument
is `none` when the dataset file is absent, unparseable, or not an array
(the `try`/`catch` and `Array.isArray` guard), in which case the set stays
empty; otherwise each item with a truthy `hex` contributes its lower-cased
hex. -/
def loadMilitaryHexCodes (data : Option (List MilitaryItem)) : List String :=
  match data with
  | none => []
  | some items =>
    items.filterMap (fun it =>
      match it.hex with
      | some h => if h = "" then none else some (strLower h)
      | none => none)

/-- `isMilitary(icao24)` from tracker.js:
`militaryHexCodes.has(icao24?.toLowerCase() ?? '')`. -/
def isMilitary (codes : List String) (icao24 : Option String) : Bool :=
  decide (((icao24.map strLower).getD "") ∈ codes)

/-! ## Positions and track segmentation -/

/-- One row of the per-aircraft position query in `getAllTracksLast24h`
(columns latitude, longitude, altitude, velocity, heading, timestamp).
JS numbers are modelled as rationals; the timestamp is in milliseconds
since the epoch, matching `new Date(ts).getTime()`. -/
structure Position where
  latitude : Option ℚ
  longitude : Option ℚ
  altitude : Option ℚ
  velocity : Option ℚ
  heading : Option ℚ
  timestamp : ℚ
deriving DecidableEq

/-- The `TrackSegment` interface: a list of positions, the gap flag, and
the optional gap duration in seconds. -/
structure TrackSegment where
  positions : List Position
  hasGapBefore : Bool
  gapDurationSeconds : Option ℚ
deriving DecidableEq

/-- `(currTime - prevTime) / 1000` in `splitIntoSegments`. -/
def gapSecondsBetween (prev curr : Position) : ℚ :=
  (curr.timestamp - prev.timestamp) / 1000

/-- `MAX_POSITION_GAP_SECONDS` in tracker.js. -/
def MAX_POSITION_GAP_SECONDS : ℚ := 300

/-- The code after the loop of `splitIntoSegments`: if the current segment
is nonempty, either merge it with a trailing empty gap-marker segment
(taking over its gap duration), or append it as a fresh gapless segment. -/
def finalizeSegments (segments : List TrackSegment) (cur : List Position) :
    List TrackSegment :=
  if 1 ≤ cur.length then
    match segments.getLast? with
    | some lastSeg =>
      if lastSeg.positions.length = 0 then
        segments.dropLast ++ [⟨cur, true, lastSeg.gapDurationSeconds⟩]
      else
        segments ++ [⟨cur, false, none⟩]
    | none => segments ++ [⟨cur, false, none⟩]
  else segments

/-- The `for` loop of `splitIntoSegments`, threading the `segments` array,
the `currentSegment` array and the previous position.  On a gap the current
segment is closed (with `segments.length > 0 ? false : false`, i.e. always
`false`, as in the source) and an empty marker segment carrying the gap
duration is pushed. -/
def splitLoop (segments : List TrackSegment) (cur : List Position)
    (prev : Position) : List Position → List TrackSegment
  | [] => finalizeSegments segments cur
  | p :: rest =>
    if MAX_POSITION_GAP_SECONDS < gapSecondsBetween prev p then
      splitLoop
        ((if 1 ≤ cur.length then
            segments ++ [⟨cur, if 0 < segments.length then false else false, none⟩]
          else segments)
          ++ [⟨[], true, some (gapSecondsBetween prev p)⟩])
        [p] p rest
    else
      splitLoop segments (cur ++ [p]) p rest

/-- `splitIntoSegments(positions)` from tracker.js: run the loop starting
from a singleton current segment, then drop the (empty) marker segments. -/
def splitIntoSegments : List Position → List TrackSegment
  | [] => []
  | p :: rest =>
    (splitLoop [] [p] p rest).filter (fun s => 1 ≤ s.positions.length)

/-- A position sample carrying only a timestamp (milliseconds), used for
concrete segmentation scenarios. -/
def tpos (t : ℚ) : Position :=
  { latitude := none, longitude := none, altitude := none,
    velocity := none, heading := none, timestamp := t }

/-- The spec's worked example: samples at 0s, 60s, 120s, 600s, 660s. -/
def specExamplePositions : List Position :=
  [tpos 0, tpos 60000, tpos 120000, tpos 600000, tpos 660000]

/-- A sequence with two tracking gaps: samples at 0s, 600s, 1200s
(each consecutive gap is 600s > 300s). -/
def doubleGapPositions : List Position :=
  [tpos 0, tpos 600000, tpos 1200000]

/-! ## Aircraft states and the fusion merge -/

/-- The `alt_baro` field of a feed record: a number or the literal
string sentinel for "on ground". -/
inductive AltBaro where
  | num (x : ℚ)
  | ground
deriving DecidableEq

/-- An in-memory aircraft state as produced by the feed adapters
(`ADSBoneAircraft` fields used by tracker.js). -/
structure AircraftState where
  hex : Option String
  flight : Option String
  lat : Option ℚ
  lon : Option ℚ
  alt_baro : Option AltBaro
  alt_geom : Option ℚ
  gs : Option ℚ
  track : Option ℚ
  baro_rate : Option ℚ
  geom_rate : Option ℚ
  t : Option String
  desc : Option String
deriving DecidableEq

/-- An aircraft state with every field absent; concrete states are built
by structure update from it. -/
def emptyState : AircraftState :=
  { hex := none, flight := none, lat := none, lon := none, alt_baro := none,
    alt_geom := none, gs := none, track := none, baro_rate := none,
    geom_rate := none, t := none, desc := none }

/-- `ac.hex?.toLowerCase()` guarded by JS truthiness: `none` when the hex
is absent or the empty string, otherwise the lower-cased hex.  This is the
key the merge and store loops of `fetchAndStoreRussianAircraft` use. -/
def acKey (ac : AircraftState) : Option String :=
  match ac.hex with
  | some h => if h = "" then none else some (strLower h)
  | none => none

/-- The lower-cased identifiers of a list of aircraft states (entries with
a falsy hex contribute nothing). -/
def lowerKeys (l : List AircraftState) : List String :=
  l.filterMap acKey

/-- First merge loop of `fetchAndStoreRussianAircraft`: every ADSB.one
entry with a truthy hex is admitted and its lower-cased hex recorded in
the seen-set. -/
def addAdsb (seen : List String) : List AircraftState →
    List String × List AircraftState
  | [] => (seen, [])
  | ac :: rest =>
    match acKey ac with
    | some k =>
      let r := addAdsb (k :: seen) rest
      (r.1, ac :: r.2)
    | none => addAdsb seen rest

/-- Second merge loop of `fetchAndStoreRussianAircraft`: an OpenSky entry
is admitted only when its lower-cased hex has not been seen yet. -/
def addOpenSky (seen : List String) : List AircraftState → List AircraftState
  | [] => []
  | ac :: rest =>
    match acKey ac with
    | some k =>
      if k ∈ seen then addOpenSky seen rest
      else ac :: addOpenSky (k :: seen) rest
    | none => addOpenSky seen rest

/-- The fusion merge of `fetchAndStoreRussianAircraft` (tracker.js lines
194-211): ADSB.one entries first, then OpenSky entries whose lower-cased
hex is new. -/
def mergeAircraft (adsb opensky : List AircraftState) : List AircraftState :=
  let r := addAdsb [] adsb
  r.2 ++ addOpenSky r.1 opensky

/-! ## Ingestion cycle: per-aircraft persistence -/

/-- A persisted `aircraft` row. -/
structure AircraftRecord where
  icao24 : String
  callsign : Option String
  origin_country : Option String
  aircraft_type : Option String
  first_seen : ℚ
  last_seen : ℚ
  total_sightings : Nat
deriving DecidableEq

/-- The `INSERT ... ON CONFLICT (icao24) DO UPDATE` upsert of the
`aircraft` table in `fetchAndStoreRussianAircraft`, modelled on the single
row keyed by `icao24`: on insert, `first_seen`/`last_seen` default to the
current timestamp and the sighting count to 1; on conflict, callsign and
type are `COALESCE`d with the existing values, `last_seen` is bumped to
now and the sighting count incremented. -/
def upsertAircraft (existing : Option AircraftRecord) (now : ℚ)
    (icao24 : String) (callsign aircraft_type : Option String) :
    AircraftRecord :=
  match existing with
  | none =>
    { icao24 := icao24, callsign := callsign,
      origin_country := some "Russia", aircraft_type := aircraft_type,
      first_seen := now, last_seen := now, total_sightings := 1 }
  | some r =>
    { r with
      callsign := callsign.orElse (fun _ => r.callsign),
      aircraft_type := aircraft_type.orElse (fun _ => r.aircraft_type),
      last_seen := now,
      total_sightings := r.total_sightings + 1 }

/-- A `positions` row as inserted by `fetchAndStoreRussianAircraft`. -/
structure PosRow where
  icao24 : String
  callsign : Option String
  latitude : ℚ
  longitude : ℚ
  altitude : Option ℚ
  velocity : Option ℚ
  heading : Option ℚ
  vertical_rate : Option ℚ
  on_ground : Bool
deriving DecidableEq

/-- `ac.flight?.trim() || null`. -/
def callsignOf (ac : AircraftState) : Option String :=
  match ac.flight with
  | some f => if f.trim = "" then none else some f.trim
  | none => none

/-- `const altitude = ac.alt_baro ?? ac.alt_geom ?? null`. -/
def resolveAltitude (ac : AircraftState) : Option AltBaro :=
  (ac.alt_baro).orElse (fun _ => ac.alt_geom.map AltBaro.num)

/-- The `positions` row built for one aircraft state with coordinates
`la`/`lo`: altitude stored only when numeric, velocity/heading from
`gs`/`track`, vertical rate from `baro_rate ?? geom_rate ?? null`, and
`onGround = ac.alt_baro === 'ground' || altitude === 0`. -/
def mkPosRow (icao : String) (ac : AircraftState) (la lo : ℚ) : PosRow :=
  { icao24 := icao, callsign := callsignOf ac, latitude := la, longitude := lo,
    altitude := match resolveAltitude ac with
      | some (AltBaro.num x) => some x
      | _ => none,
    velocity := ac.gs,
    heading := ac.track,
    vertical_rate := (ac.baro_rate).orElse (fun _ => ac.geom_rate),
    on_ground := decide (ac.alt_baro = some AltBaro.ground)
      || decide (resolveAltitude ac = some (AltBaro.num 0)) }

/-- One iteration of the storage loop of `fetchAndStoreRussianAircraft`
for one aircraft state: skip on a falsy identifier (`continue`), skip the
whole iteration when the aircraft upsert throws (`upsertOk` false), insert
a position row only when both coordinates are non-null and the insert
succeeds (`insertOk`).  Returns the inserted row, if any. -/
def storeStep (upsertOk insertOk : AircraftState → Bool)
    (ac : AircraftState) : Option PosRow :=
  match acKey ac with
  | none => none
  | some icao =>
    if upsertOk ac then
      match ac.lat, ac.lon with
      | some la, some lo =>
        if insertOk ac then some (mkPosRow icao ac la lo) else none
      | _, _ => none
    else none

/-- The per-aircraft storage loop of `fetchAndStoreRussianAircraft`.
`upsertOk`/`insertOk` are oracles for whether the two database queries for
a given state succeed (a thrown query is caught and skips the rest of that
iteration).  Returns the final `storedCount` and the successfully inserted
position rows, in order. -/
def storeLoop (upsertOk insertOk : AircraftState → Bool) :
    List AircraftState → Nat × List PosRow
  | [] => (0, [])
  | ac :: rest =>
    let r := storeLoop upsertOk insertOk rest
    match storeStep upsertOk insertOk ac with
    | some row => (r.1 + 1, row :: r.2)
    | none => r

/-- The `{tracked, stored}` summary returned by
`fetchAndStoreRussianAircraft`. -/
structure TrackerResult where
  tracked : Nat
  stored : Nat
deriving DecidableEq

/-- `fetchAndStoreRussianAircraft` after the two adapters returned `adsb`
and `opensky`: merge, short-circuit on an empty merge, filter to Russian
aircraft, run the storage loop, and return the summary together with the
inserted position rows. -/
def fetchAndStoreRussianAircraft (adsb opensky : List AircraftState)
    (upsertOk insertOk : AircraftState → Bool) :
    TrackerResult × List PosRow :=
  let merged := mergeAircraft adsb opensky
  if merged.length = 0 then (⟨0, 0⟩, [])
  else
    let russian := merged.filter (fun ac => isRussianAircraft ac.hex)
    let r := storeLoop upsertOk insertOk russian
    (⟨russian.length, r.1⟩, r.2)

/-! ## Geo metric and the 24h track query -/

/-- JavaScript's `Math.atan2(y, x)`, over the reals. -/
noncomputable def atan2 (y x : ℝ) : ℝ :=
  if 0 < x then Real.arctan (y / x)
  else if x < 0 ∧ 0 ≤ y then Real.arctan (y / x) + Real.pi
  else if x < 0 ∧ y < 0 then Real.arctan (y / x) - Real.pi
  else if x = 0 ∧ 0 < y then Real.pi / 2
  else if x = 0 ∧ y < 0 then -(Real.pi / 2)
  else 0

/-- `haversineDistance(lat1, lon1, lat2, lon2)` from tracker.js: great
circle distance in kilometers with Earth radius 6371 km, the float
arithmetic modelled over the reals. -/
noncomputable def haversineDistance (lat1 lon1 lat2 lon2 : ℝ) : ℝ :=
  let R : ℝ := 6371
  let dLat := (lat2 - lat1) * Real.pi / 180
  let dLon := (lon2 - lon1) * Real.pi / 180
  let a := Real.sin (dLat / 2) * Real.sin (dLat / 2) +
    Real.cos (lat1 * Real.pi / 180) * Real.cos (lat2 * Real.pi / 180) *
    Real.sin (dLon / 2) * Real.sin (dLon / 2)
  let c := 2 * atan2 (Real.sqrt a) (Real.sqrt (1 - a))
  R * c

/-- The radius filter inside `getAllTracksLast24h`: a position is dropped
when its latitude or longitude is null or its haversine distance from the
center exceeds the radius (`distance <= radiusKm` keeps it). -/
noncomputable def filterPositions (centerLat centerLon radiusKm : ℚ)
    (ps : List Position) : List Position :=
  ps.filter (fun pos =>
    match pos.latitude, pos.longitude with
    | some la, some lo =>
      decide (haversineDistance (centerLat : ℝ) (centerLon : ℝ) (la : ℝ) (lo : ℝ)
        ≤ (radiusKm : ℝ))
    | _, _ => false)

/-- One row of the distinct-aircraft query in `getAllTracksLast24h`. -/
structure AircraftRow where
  icao24 : String
  callsign : Option String
  aircraft_type : Option String
deriving DecidableEq

/-- The `AircraftTrack` shape produced by `getAllTracksLast24h`. -/
structure AircraftTrack where
  icao24 : String
  callsign : Option String
  aircraft_type : Option String
  positions : List Position
  segments : List TrackSegment
  is_military : Bool
deriving DecidableEq

/-- The `let positions = ...` step of `getAllTracksLast24h`: apply the
radius filter only when a full center/radius filter was supplied. -/
noncomputable def qualifyingPositions (filt : Option (ℚ × ℚ × ℚ))
    (rows : List Position) : List Position :=
  match filt with
  | some (cla, clo, r) => filterPositions cla clo r rows
  | none => rows

/-- `getAllTracksLast24h` from tracker.js, with the database modelled as
the list of per-aircraft query results: each distinct aircraft row paired
with its time-ordered positions of the trailing 24 hours.  A track is
emitted only when at least 2 positions survive the optional filter. -/
noncomputable def getAllTracksLast24h (military : List String)
    (filt : Option (ℚ × ℚ × ℚ)) :
    List (AircraftRow × List Position) → List AircraftTrack
  | [] => []
  | (ac, rows) :: rest =>
    let positions := qualifyingPositions filt rows
    if 2 ≤ positions.length then
      { icao24 := ac.icao24, callsign := ac.callsign,
        aircraft_type := ac.aircraft_type, positions := positions,
        segments := splitIntoSegments positions,
        is_military := isMilitary military (some ac.icao24) }
        :: getAllTracksLast24h military filt rest
    else getAllTracksLast24h military filt rest

/-! ## Auxiliary definitions for the verification -/

/-- Concatenation of the position lists of a list of segments. -/
def segJoin (l : List TrackSegment) : List Position :=
  (l.map TrackSegment.positions).flatten

/-- An ADSB.one-style output entry whose hex is upper-case. -/
def dupCaseUpper : AircraftState := { emptyState with hex := some "ABC" }

/-- An ADSB.one-style output entry whose hex is the lower-case variant of
`dupCaseUpper`'s. -/
def dupCaseLower : AircraftState := { emptyState with hex := some "abc" }

/-- A sample higher-priority (ADSB.one) aircraft state. -/
def adsbSample : AircraftState :=
  { emptyState with hex := some "140AB1", flight := some "RSD123" }

/-- A sample lower-priority (OpenSky) aircraft state with the same
identifier as `adsbSample` in another casing. -/
def openSkySample : AircraftState := { emptyState with hex := some "140ab1" }

/-- A sample Russian-range aircraft state with coordinates. -/
def rusSample : AircraftState :=
  { emptyState with hex := some "140aa1", lat := some 10, lon := some 20 }

/-- A sample state reporting the ground sentinel in `alt_baro` while a
geometric altitude is also present. -/
def groundSample : AircraftState :=
  { emptyState with
    hex := some "140aa1", lat := some 1, lon := some 2,
    alt_baro := some AltBaro.ground, alt_geom := some 5 }

/-- A sample distinct-aircraft row with two stored positions. -/
def rowOne : AircraftRow := ⟨"140aaa", none, none⟩

/-- A sample distinct-aircraft row with a single stored position. -/
def rowTwo : AircraftRow := ⟨"150bbb", none, none⟩

/-- A sample database snapshot for the 24h track query: `rowOne` has two
positions, `rowTwo` only one. -/
def dbSample : List (AircraftRow × List Position) :=
  [(rowOne, [tpos 0, tpos 60000]), (rowTwo, [tpos 0])]

/-- The track that `getAllTracksLast24h` emits for `rowOne` of
`dbSample` without a geographic filter. -/
def trackSample : AircraftTrack :=
  ⟨"140aaa", none, none, [tpos 0, tpos 60000],
    [⟨[tpos 0, tpos 60000], false, none⟩], false⟩

/-- A sample pre-existing aircraft record. -/
def recordSample : AircraftRecord :=
  ⟨"140aa1", some "OLD", some "Russia", some "IL76", 100, 200, 5⟩

/-! ## Theorems -/

/-- `isRussianAircraft` on a present identifier is exactly prefix
membership of the lower-cased identifier, also for the empty string. -/
theorem isRussianAircraft_eq_decide (s : String) :
    isRussianAircraft (some s)
      = decide ((strTake (strLower s) 3) ∈ RUSSIAN_ICAO_PREFIXES) := by
  by_cases h : s = ""
  · subst h; decide
  · simp [isRussianAircraft, h]

/-- C6: for every identifier string, `isOfInterest` (`isRussianAircraft`)
returns true iff the first 3 characters of the lower-cased identifier are
a member of the fixed prefix set `140`..`157`; it returns false for an
absent (null or empty) identifier, and changing the casing of an
identifier never changes the result. -/
theorem C6_isOfInterest_spec :
    isRussianAircraft none = false ∧
    isRussianAircraft (some "") = false ∧
    (∀ s, isRussianAircraft (some s) = true ↔
      (strTake (strLower s) 3) ∈ RUSSIAN_ICAO_PREFIXES) ∧
    (∀ s t, strLower s = strLower t →
      isRussianAircraft (some s) = isRussianAircraft (some t)) := by
  refine ⟨rfl, by decide, ?_, ?_⟩
  · intro s
    rw [isRussianAircraft_eq_decide]
    exact decide_eq_true_iff
  · intro s t h
    rw [isRussianAircraft_eq_decide, isRussianAircraft_eq_decide, h]

/-- Witness for C6 at a concrete pair of identifiers differing only in
casing. -/
theorem C6_isOfInterest_spec_witness :
    (strLower "140AB1" = strLower "140ab1") ∧
    isRussianAircraft (some "140AB1") = isRussianAircraft (some "140ab1") :=
  ⟨by decide, C6_isOfInterest_spec.2.2.2 "140AB1" "140ab1" (by decide)⟩

/-- C9: when the military dataset is absent or unparseable the loaded set
is empty and `isMilitary` returns false for every identifier (null
included); when a dataset was parsed, `isMilitary` on a present identifier
is exactly membership of the lower-cased identifier in the loaded set. -/
theorem C9_isMilitary_spec :
    loadMilitaryHexCodes none = [] ∧
    (∀ icao24, isMilitary (loadMilitaryHexCodes none) icao24 = false) ∧
    (∀ items s,
      isMilitary (loadMilitaryHexCodes (some items)) (some s) = true ↔
        strLower s ∈ loadMilitaryHexCodes (some items)) := by
  refine ⟨rfl, ?_, ?_⟩
  · intro icao24
    simp [isMilitary, loadMilitaryHexCodes]
  · intro items s
    simp [isMilitary]

/-- C5: upserting an existing `AircraftRecord` leaves `first_seen`
unchanged, sets `last_seen` to the current time (so it never decreases),
increments the sighting count by exactly 1, and overwrites callsign and
type only when the incoming value is non-null; repeating the upsert with
identical non-null fields leaves callsign/type unchanged while the
sighting count grows by 1 each time. -/
theorem C5_upsert_spec (r : AircraftRecord) (now : ℚ) (icao : String)
    (cs ty : Option String) (h : r.last_seen ≤ now) :
    (upsertAircraft (some r) now icao cs ty).first_seen = r.first_seen ∧
    (upsertAircraft (some r) now icao cs ty).last_seen = now ∧
    r.last_seen ≤ (upsertAircraft (some r) now icao cs ty).last_seen ∧
    (upsertAircraft (some r) now icao cs ty).total_sightings
      = r.total_sightings + 1 ∧
    (cs = none → (upsertAircraft (some r) now icao cs ty).callsign
      = r.callsign) ∧
    (∀ c, cs = some c →
      (upsertAircraft (some r) now icao cs ty).callsign = some c) ∧
    (ty = none → (upsertAircraft (some r) now icao cs ty).aircraft_type
      = r.aircraft_type) ∧
    (∀ tv, ty = some tv →
      (upsertAircraft (some r) now icao cs ty).aircraft_type = some tv) ∧
    (∀ c tv, cs = some c → ty = some tv →
      (upsertAircraft (some (upsertAircraft (some r) now icao cs ty)) now
          icao cs ty).callsign
        = (upsertAircraft (some r) now icao cs ty).callsign ∧
      (upsertAircraft (some (upsertAircraft (some r) now icao cs ty)) now
          icao cs ty).aircraft_type
        = (upsertAircraft (some r) now icao cs ty).aircraft_type ∧
      (upsertAircraft (some (upsertAircraft (some r) now icao cs ty)) now
          icao cs ty).total_sightings
        = r.total_sightings + 2) := by
  refine ⟨rfl, rfl, h, rfl, ?_, ?_, ?_, ?_, ?_⟩
  · intro hcs; subst hcs; simp [upsertAircraft, Option.orElse]
  · intro c hcs; subst hcs; simp [upsertAircraft, Option.orElse]
  · intro hty; subst hty; simp [upsertAircraft, Option.orElse]
  · intro tv hty; subst hty; simp [upsertAircraft, Option.orElse]
  · intro c tv hcs hty; subst hcs; subst hty
    refine ⟨?_, ?_, ?_⟩ <;> simp [upsertAircraft, Option.orElse]

/-- Witness for C5 at a concrete record and incoming values. -/
theorem C5_upsert_spec_witness :
    (recordSample.last_seen ≤ 300) ∧
    (upsertAircraft (some recordSample) 300 "140aa1" (some "NEW")
      (some "TU95")).total_sightings = recordSample.total_sightings + 1 ∧
    (upsertAircraft (some recordSample) 300 "140aa1" (some "NEW")
      (some "TU95")).callsign = some "NEW" :=
  ⟨by decide,
    (C5_upsert_spec recordSample 300 "140aa1" (some "NEW") (some "TU95")
      (by decide)).2.2.2.1,
    (C5_upsert_spec recordSample 300 "140aa1" (some "NEW") (some "TU95")
      (by decide)).2.2.2.2.2.1 "NEW" rfl⟩

/-- C8: in a stored position row the altitude is the resolved altitude
when numeric and null otherwise (the ground sentinel is never stored as
altitude), velocity/heading/vertical-rate are null whenever absent from
the source record, and the on-ground flag is true iff the ground sentinel
was present or the resolved altitude is exactly 0. -/
theorem C8_position_fields_spec (icao : String) (ac : AircraftState)
    (la lo : ℚ) :
    (ac.alt_baro = some AltBaro.ground →
      (mkPosRow icao ac la lo).altitude = none) ∧
    (∀ x, ac.alt_baro = some (AltBaro.num x) →
      (mkPosRow icao ac la lo).altitude = some x) ∧
    (ac.alt_baro = none →
      (mkPosRow icao ac la lo).altitude = ac.alt_geom) ∧
    (ac.gs = none → (mkPosRow icao ac la lo).velocity = none) ∧
    (ac.track = none → (mkPosRow icao ac la lo).heading = none) ∧
    (ac.baro_rate = none → ac.geom_rate = none →
      (mkPosRow icao ac la lo).vertical_rate = none) ∧
    ((mkPosRow icao ac la lo).on_ground = true ↔
      (ac.alt_baro = some AltBaro.ground ∨
        resolveAltitude ac = some (AltBaro.num 0))) := by
  refine ⟨?_, ?_, ?_, ?_, ?_, ?_, ?_⟩
  · intro hg; simp [mkPosRow, resolveAltitude, hg, Option.orElse]
  · intro x hx; simp [mkPosRow, resolveAltitude, hx, Option.orElse]
  · intro hn
    simp only [mkPosRow, resolveAltitude, hn, Option.orElse]
    cases ac.alt_geom <;> simp
  · intro hgs; simp [mkPosRow, hgs]
  · intro htr; simp [mkPosRow, htr]
  · intro hb hg; simp [mkPosRow, hb, hg, Option.orElse]
  · simp [mkPosRow]

/-- Witness for C8 at a state carrying the ground sentinel next to a
numeric geometric altitude. -/
theorem C8_position_fields_spec_witness :
    (groundSample.alt_baro = some AltBaro.ground) ∧
    (mkPosRow "140aa1" groundSample 1 2).altitude = none ∧
    (mkPosRow "140aa1" groundSample 1 2).on_ground = true :=
  ⟨rfl,
    (C8_position_fields_spec "140aa1" groundSample 1 2).1 rfl,
    (C8_position_fields_spec "140aa1" groundSample 1 2).2.2.2.2.2.2.mpr
      (Or.inl rfl)⟩

/-- C1: evaluation of `splitIntoSegments` on two concrete scenarios.  On
the spec's example (samples at 0s, 60s, 120s, 600s, 660s) it yields the
two claimed segments.  But on a sequence with two gaps (0s, 600s, 1200s,
each consecutive gap 600s > 300s) the middle segment — which follows a
gap exceeding the threshold — carries `hasGapBefore = false` and no gap
duration: only the final segment is flagged, contradicting the claim. -/
theorem C1_segmentation_evaluation :
    (splitIntoSegments specExamplePositions =
      [⟨[tpos 0, tpos 60000, tpos 120000], false, none⟩,
       ⟨[tpos 600000, tpos 660000], true, some 480⟩]) ∧
    (MAX_POSITION_GAP_SECONDS < gapSecondsBetween (tpos 0) (tpos 600000)) ∧
    (splitIntoSegments doubleGapPositions =
      [⟨[tpos 0], false, none⟩,
       ⟨[tpos 600000], false, none⟩,
       ⟨[tpos 1200000], true, some 600⟩]) := by
  refine ⟨?_, ?_, ?_⟩ <;>
    norm_num [splitIntoSegments, splitLoop, finalizeSegments,
      gapSecondsBetween, MAX_POSITION_GAP_SECONDS, tpos,
      specExamplePositions, doubleGapPositions]

theorem segJoin_cons (s : TrackSegment) (l : List TrackSegment) :
    segJoin (s :: l) = s.positions ++ segJoin l := by
  simp [segJoin]

theorem segJoin_append (a b : List TrackSegment) :
    segJoin (a ++ b) = segJoin a ++ segJoin b := by
  simp [segJoin]

/-- Dropping the empty marker segments does not change the concatenated
positions. -/
theorem segJoin_filter_nonempty (l : List TrackSegment) :
    segJoin (l.filter (fun s => 1 ≤ s.positions.length)) = segJoin l := by
  induction l with
  | nil => rfl
  | cons s rest ih =>
    by_cases h : 1 ≤ s.positions.length
    · rw [List.filter_cons_of_pos (by simpa using h), segJoin_cons,
        segJoin_cons, ih]
    · have hnil : s.positions = [] := by
        cases hp : s.positions with
        | nil => rfl
        | cons x xs => exact absurd (by simp [hp]) h
      rw [List.filter_cons_of_neg (by simpa using h), ih, segJoin_cons, hnil]
      simp

/-- The final-segment bookkeeping appends exactly the pending current
segment to the concatenated positions. -/
theorem segJoin_finalize (segments : List TrackSegment)
    (cur : List Position) :
    segJoin (finalizeSegments segments cur) = segJoin segments ++ cur := by
  unfold finalizeSegments
  by_cases hc : 1 ≤ cur.length
  · simp only [hc, if_true]
    cases hl : segments.getLast? with
    | none =>
      have hse : segments = [] := by
        cases hseg : segments with
        | nil => rfl
        | cons a as => rw [hseg] at hl; simp [List.getLast?_concat] at hl
      subst hse
      simp [segJoin]
    | some lastSeg =>
      by_cases hz : lastSeg.positions.length = 0
      · simp only [hz, if_true]
        have hsplit := List.dropLast_append_getLast? lastSeg hl
        have hjoin : segJoin segments = segJoin segments.dropLast := by
          conv_lhs => rw [← hsplit]
          rw [segJoin_append]
          simp [segJoin, List.length_eq_zero.mp hz]
        rw [segJoin_append, ← hjoin]
        simp [segJoin]
      · simp only [hz, if_false]
        rw [segJoin_append]
        simp [segJoin]
  · have hnil : cur = [] :=
      List.length_eq_zero.mp (Nat.lt_one_iff.mp (Nat.not_le.mp hc))
    simp [hc, hnil]

/-- Loop invariant: the concatenated positions of the produced segments
are the already-closed positions, then the current segment, then the
unprocessed input. -/
theorem segJoin_splitLoop (rest : List Position) :
    ∀ (segments : List TrackSegment) (cur : List Position) (prev : Position),
      segJoin (splitLoop segments cur prev rest)
        = segJoin segments ++ cur ++ rest := by
  induction rest with
  | nil =>
    intro segments cur prev
    simp [splitLoop, segJoin_finalize]
  | cons p rest ih =>
    intro segments cur prev
    unfold splitLoop
    by_cases hg : MAX_POSITION_GAP_SECONDS < gapSecondsBetween prev p
    · simp only [hg, if_true]
      rw [ih]
      by_cases hc : 1 ≤ cur.length
      · simp only [hc, if_true]
        rw [segJoin_append, segJoin_append]
        simp [segJoin]
      · have hnil : cur = [] :=
          List.length_eq_zero.mp (Nat.lt_one_iff.mp (Nat.not_le.mp hc))
        simp only [hc, if_false]
        rw [segJoin_append]
        simp [segJoin, hnil]
    · simp only [hg, if_false]
      rw [ih]
      simp

/-- C10: the segmenter's output partitions its input — every emitted
segment is nonempty, and the concatenation of the emitted segments'
position lists, in order, is exactly the input sequence. -/
theorem C10_segments_partition (positions : List Position) :
    ((splitIntoSegments positions).all
      (fun s => 1 ≤ s.positions.length)) = true ∧
    segJoin (splitIntoSegments positions) = positions := by
  constructor
  · cases positions with
    | nil => rfl
    | cons p rest =>
      apply List.all_eq_true.mpr
      intro s hs
      exact (List.mem_filter.mp hs).2
  · cases positions with
    | nil => rfl
    | cons p rest =>
      show segJoin ((splitLoop [] [p] p rest).filter
        (fun s => 1 ≤ s.positions.length)) = p :: rest
      rw [segJoin_filter_nonempty, segJoin_splitLoop]
      simp [segJoin]

/-- The first merge loop admits exactly the entries with a truthy hex. -/
theorem lowerKeys_def (l : List AircraftState) :
    lowerKeys l = l.filterMap acKey := rfl

/-- The first merge loop admits exactly the entries with a truthy hex. -/
theorem addAdsb_snd (seen : List String) (l : List AircraftState) :
    (addAdsb seen l).2 = l.filter (fun ac => (acKey ac).isSome) := by
  induction l generalizing seen with
  | nil => rfl
  | cons ac rest ih =>
    cases hk : acKey ac with
    | some k => simp [addAdsb, hk, List.filter_cons, ih]
    | none => simp [addAdsb, hk, List.filter_cons, ih]

/-- The seen-set after the first merge loop holds exactly the lower-cased
identifiers of the input plus the initial seen-set. -/
theorem mem_addAdsb_fst (l : List AircraftState) :
    ∀ (seen : List String) (k : String),
      k ∈ (addAdsb seen l).1 ↔ k ∈ lowerKeys l ∨ k ∈ seen := by
  induction l with
  | nil => intro seen k; simp [addAdsb, lowerKeys_def]
  | cons ac rest ih =>
    intro seen k
    cases hk : acKey ac with
    | some k2 =>
      simp only [addAdsb, hk, lowerKeys_def, List.filterMap_cons,
        List.mem_cons]
      rw [show (addAdsb (k2 :: seen) rest).1
        = (addAdsb (k2 :: seen) rest).1 from rfl]
      have ih2 := ih (k2 :: seen) k
      rw [lowerKeys_def] at ih2
      rw [ih2]
      simp only [List.mem_cons]
      tauto
    | none =>
      simp only [addAdsb, hk, lowerKeys_def, List.filterMap_cons]
      have ih2 := ih seen k
      rw [lowerKeys_def] at ih2
      exact ih2

/-- Filtering to truthy-hex entries does not change the identifier
list. -/
theorem lowerKeys_filter_isSome (l : List AircraftState) :
    lowerKeys (l.filter (fun ac => (acKey ac).isSome)) = lowerKeys l := by
  induction l with
  | nil => rfl
  | cons ac rest ih =>
    cases hk : acKey ac with
    | some k =>
      simp only [List.filter_cons, hk, Option.isSome_some, if_true,
        lowerKeys_def, List.filterMap_cons] at *
      rw [ih]
    | none =>
      simp only [List.filter_cons, hk, Option.isSome_none,
        lowerKeys_def, List.filterMap_cons] at *
      simpa using ih

/-- Identifiers admitted by the second merge loop: exactly the input's
identifiers not yet seen. -/
theorem mem_lowerKeys_addOpenSky (l : List AircraftState) :
    ∀ (seen : List String) (k : String),
      k ∈ lowerKeys (addOpenSky seen l) ↔ k ∈ lowerKeys l ∧ k ∉ seen := by
  induction l with
  | nil => intro seen k; simp [addOpenSky, lowerKeys_def]
  | cons ac rest ih =>
    intro seen k
    cases hk : acKey ac with
    | some k2 =>
      by_cases hs : k2 ∈ seen
      · rw [show addOpenSky seen (ac :: rest)
            = addOpenSky seen rest by simp [addOpenSky, hk, hs]]
        rw [ih seen k]
        simp only [lowerKeys_def, List.filterMap_cons, hk, List.mem_cons]
        constructor
        · tauto
        · rintro ⟨hk1 | hk2, hk3⟩
          · exact absurd (hk1 ▸ hs) hk3
          · exact ⟨hk2, hk3⟩
      · rw [show addOpenSky seen (ac :: rest)
            = ac :: addOpenSky (k2 :: seen) rest by
            simp [addOpenSky, hk, hs]]
        simp only [lowerKeys_def, List.filterMap_cons, hk, List.mem_cons]
        have ih2 := ih (k2 :: seen) k
        simp only [lowerKeys_def, List.mem_cons] at ih2
        rw [ih2]
        constructor
        · rintro (hk1 | ⟨hk2, hk3⟩)
          · exact ⟨Or.inl hk1, hk1 ▸ hs⟩
          · exact ⟨Or.inr hk2, fun hx => hk3 (Or.inr hx)⟩
        · rintro ⟨hk1 | hk2, hk3⟩
          · exact Or.inl hk1
          · by_cases hkk : k = k2
            · exact Or.inl hkk
            · exact Or.inr ⟨hk2, fun hx => hx.elim hkk hk3⟩
    | none =>
      rw [show addOpenSky seen (ac :: rest)
          = addOpenSky seen rest by simp [addOpenSky, hk]]
      rw [ih seen k]
      simp only [lowerKeys_def, List.filterMap_cons, hk]

/-- The second merge loop never admits two entries with the same
lower-cased identifier. -/
theorem nodup_lowerKeys_addOpenSky (l : List AircraftState) :
    ∀ seen : List String, (lowerKeys (addOpenSky seen l)).Nodup := by
  induction l with
  | nil => intro seen; simp [addOpenSky, lowerKeys_def]
  | cons ac rest ih =>
    intro seen
    cases hk : acKey ac with
    | some k2 =>
      by_cases hs : k2 ∈ seen
      · rw [show addOpenSky seen (ac :: rest)
            = addOpenSky seen rest by simp [addOpenSky, hk, hs]]
        exact ih seen
      · rw [show addOpenSky seen (ac :: rest)
            = ac :: addOpenSky (k2 :: seen) rest by
          simp [addOpenSky, hk, hs]]
        rw [lowerKeys_def, List.filterMap_cons, hk]
        refine List.nodup_cons.mpr ⟨?_, ih _⟩
        intro hmem
        exact ((mem_lowerKeys_addOpenSky rest (k2 :: seen) k2).mp hmem).2
          (List.mem_cons_self _ _)
    | none =>
      rw [show addOpenSky seen (ac :: rest)
          = addOpenSky seen rest by simp [addOpenSky, hk]]
      exact ih seen

/-- An entry admitted by the second merge loop has a key outside the
seen-set. -/
theorem addOpenSky_key_not_seen (l : List AircraftState) :
    ∀ (seen : List String) (ac : AircraftState) (k : String),
      ac ∈ addOpenSky seen l → acKey ac = some k → k ∉ seen := by
  induction l with
  | nil => intro seen ac k h; simp [addOpenSky] at h
  | cons b rest ih =>
    intro seen ac k hmem hkey
    cases hk : acKey b with
    | some kb =>
      by_cases hs : kb ∈ seen
      · rw [show addOpenSky seen (b :: rest)
            = addOpenSky seen rest by simp [addOpenSky, hk, hs]] at hmem
        exact ih seen ac k hmem hkey
      · rw [show addOpenSky seen (b :: rest)
            = b :: addOpenSky (kb :: seen) rest by
          simp [addOpenSky, hk, hs]] at hmem
        rcases List.mem_cons.mp hmem with hb | hm
        · subst hb
          rw [hkey] at hk
          injection hk with h2
          exact h2 ▸ hs
        · intro hx
          exact ih (kb :: seen) ac k hm hkey (List.mem_cons_of_mem _ hx)
    | none =>
      rw [show addOpenSky seen (b :: rest)
          = addOpenSky seen rest by simp [addOpenSky, hk]] at hmem
      exact ih seen ac k hmem hkey

/-- C2 (amended): provided the higher-priority adapter's output contains
at most one entry per lower-cased identifier, the fused list has at most
one entry per lower-cased identifier, its lower-cased identifier set is
exactly the union of the adapters' identifier sets, and every fused entry
whose identifier is reported by the higher-priority adapter (ADSB.one)
comes from that adapter's list. -/
theorem C2_fusion_spec (a o : List AircraftState)
    (ha : (lowerKeys a).Nodup) :
    (lowerKeys (mergeAircraft a o)).Nodup ∧
    (∀ k, k ∈ lowerKeys (mergeAircraft a o) ↔
      k ∈ lowerKeys a ∨ k ∈ lowerKeys o) ∧
    (∀ ac k, ac ∈ mergeAircraft a o → acKey ac = some k →
      k ∈ lowerKeys a → ac ∈ a) := by
  have hm : mergeAircraft a o
      = (addAdsb [] a).2 ++ addOpenSky (addAdsb [] a).1 o := rfl
  have hkeys2 : lowerKeys (addAdsb [] a).2 = lowerKeys a := by
    rw [addAdsb_snd]
    exact lowerKeys_filter_isSome a
  have hseen : ∀ k, k ∈ (addAdsb [] a).1 ↔ k ∈ lowerKeys a := by
    intro k
    rw [mem_addAdsb_fst]
    simp
  refine ⟨?_, ?_, ?_⟩
  · rw [hm, lowerKeys_def, List.filterMap_append, ← lowerKeys_def,
      ← lowerKeys_def, List.nodup_append]
    refine ⟨by rw [hkeys2]; exact ha, nodup_lowerKeys_addOpenSky o _, ?_⟩
    intro k hk1 hk2
    have hx := (mem_lowerKeys_addOpenSky o _ k).mp hk2
    rw [hkeys2] at hk1
    exact hx.2 ((hseen k).mpr hk1)
  · intro k
    rw [hm, lowerKeys_def, List.filterMap_append, ← lowerKeys_def,
      ← lowerKeys_def, List.mem_append, hkeys2, mem_lowerKeys_addOpenSky]
    constructor
    · rintro (h1 | ⟨h2, h3⟩)
      · exact Or.inl h1
      · exact Or.inr h2
    · rintro (h1 | h2)
      · exact Or.inl h1
      · by_cases hx : k ∈ lowerKeys a
        · exact Or.inl hx
        · exact Or.inr ⟨h2, fun hc => hx ((hseen k).mp hc)⟩
  · intro ac k hmem hkey hka
    rw [hm, List.mem_append] at hmem
    rcases hmem with h1 | h2
    · rw [addAdsb_snd] at h1
      exact (List.mem_filter.mp h1).1
    · exact absurd ((hseen k).mpr hka)
        (addOpenSky_key_not_seen o _ ac k h2 hkey)

/-- C2 counterexample: when the higher-priority adapter's own output
holds the same identifier in two casings — which its case-sensitive
provider-local deduplication permits — the fused list has two entries
with the same lower-cased identifier. -/
theorem C2_fusion_counterexample :
    ¬ (lowerKeys (mergeAircraft [dupCaseUpper, dupCaseLower] [])).Nodup := by
  decide

/-- Witness for C2 at concrete one-entry adapter outputs sharing an
identifier in different casings. -/
theorem C2_fusion_spec_witness :
    (lowerKeys [adsbSample]).Nodup ∧
    (lowerKeys (mergeAircraft [adsbSample] [openSkySample])).Nodup ∧
    adsbSample ∈ [adsbSample] :=
  ⟨by decide,
    (C2_fusion_spec [adsbSample] [openSkySample] (by decide)).1,
    (C2_fusion_spec [adsbSample] [openSkySample]
      (by decide)).2.2 adsbSample "140ab1" (by decide) (by decide)
      (by decide)⟩

/-- A successful storage step inserts the state's own non-null
coordinates. -/
theorem storeStep_latlon (u i : AircraftState → Bool) (ac : AircraftState)
    (row : PosRow) :
    storeStep u i ac = some row →
    ac.lat = some row.latitude ∧ ac.lon = some row.longitude := by
  intro h
  unfold storeStep at h
  cases hk : acKey ac with
  | none => rw [hk] at h; simp at h
  | some icao =>
    rw [hk] at h
    by_cases hu : u ac = true
    · simp only [hu, if_true] at h
      cases hla : ac.lat with
      | none => simp [hla] at h
      | some la =>
        cases hlo : ac.lon with
        | none => simp [hla, hlo] at h
        | some lo =>
          by_cases hi : i ac = true
          · simp only [hla, hlo, hi, if_true] at h
            obtain rfl := Option.some.inj h
            exact ⟨rfl, rfl⟩
          · simp [hla, hlo, hi] at h
    · simp [hu] at h

/-- Storage-loop invariant: the stored counter equals the number of
inserted rows, at most one row is inserted per input state, and every
inserted row's coordinates come from a state whose latitude and longitude
are both non-null. -/
theorem storeLoop_spec (u i : AircraftState → Bool) (l : List AircraftState) :
    (storeLoop u i l).1 = (storeLoop u i l).2.length ∧
    (storeLoop u i l).2.length ≤ l.length ∧
    ∀ row ∈ (storeLoop u i l).2, ∃ ac ∈ l,
      ac.lat = some row.latitude ∧ ac.lon = some row.longitude := by
  induction l with
  | nil =>
    refine ⟨rfl, Nat.le_refl 0, ?_⟩
    intro row h
    simp [storeLoop] at h
  | cons ac rest ih =>
    obtain ⟨ih1, ih2, ih3⟩ := ih
    simp only [storeLoop]
    cases hs : storeStep u i ac with
    | none =>
      refine ⟨ih1, Nat.le_succ_of_le ih2, ?_⟩
      intro row hrow
      obtain ⟨b, hb, h1, h2⟩ := ih3 row hrow
      exact ⟨b, List.mem_cons_of_mem _ hb, h1, h2⟩
    | some row0 =>
      refine ⟨by simp [ih1], by simpa using ih2, ?_⟩
      intro row hrow
      rcases List.mem_cons.mp hrow with hr | hr
      · subst hr
        obtain ⟨h1, h2⟩ := storeStep_latlon u i ac row hs
        exact ⟨ac, List.mem_cons_self _ _, h1, h2⟩
      · obtain ⟨b, hb, h1, h2⟩ := ih3 row hr
        exact ⟨b, List.mem_cons_of_mem _ hb, h1, h2⟩

/-- C4: in an ingestion cycle a position row is inserted only for states
with non-null latitude and longitude, `tracked` is the number of merged
states surviving the nationality filter, `stored` is the number of
position inserts that succeeded, and `stored ≤ tracked`. -/
theorem C4_ingestion_counts (adsb opensky : List AircraftState)
    (upsertOk insertOk : AircraftState → Bool) :
    (fetchAndStoreRussianAircraft adsb opensky upsertOk insertOk).1.tracked
      = ((mergeAircraft adsb opensky).filter
        (fun ac => isRussianAircraft ac.hex)).length ∧
    (fetchAndStoreRussianAircraft adsb opensky upsertOk insertOk).1.stored
      = (fetchAndStoreRussianAircraft adsb opensky upsertOk insertOk).2.length ∧
    (fetchAndStoreRussianAircraft adsb opensky upsertOk insertOk).1.stored
      ≤ (fetchAndStoreRussianAircraft adsb opensky upsertOk insertOk).1.tracked ∧
    ∀ row ∈ (fetchAndStoreRussianAircraft adsb opensky upsertOk insertOk).2,
      ∃ ac ∈ mergeAircraft adsb opensky, isRussianAircraft ac.hex = true ∧
        ac.lat = some row.latitude ∧ ac.lon = some row.longitude := by
  obtain ⟨h1, h2, h3⟩ := storeLoop_spec upsertOk insertOk
    ((mergeAircraft adsb opensky).filter (fun ac => isRussianAircraft ac.hex))
  by_cases hz : (mergeAircraft adsb opensky).length = 0
  · have hempty : mergeAircraft adsb opensky = [] :=
      List.length_eq_zero.mp hz
    refine ⟨?_, ?_, ?_, ?_⟩ <;>
      simp [fetchAndStoreRussianAircraft, hz, hempty]
  · have hfs : fetchAndStoreRussianAircraft adsb opensky upsertOk insertOk
        = (⟨((mergeAircraft adsb opensky).filter
              (fun ac => isRussianAircraft ac.hex)).length,
            (storeLoop upsertOk insertOk ((mergeAircraft adsb opensky).filter
              (fun ac => isRussianAircraft ac.hex))).1⟩,
          (storeLoop upsertOk insertOk ((mergeAircraft adsb opensky).filter
            (fun ac => isRussianAircraft ac.hex))).2) := by
      simp only [fetchAndStoreRussianAircraft]
      rw [if_neg hz]
    rw [hfs]
    refine ⟨rfl, h1, ?_, ?_⟩
    · rw [h1]
      exact h2
    · intro row hrow
      obtain ⟨b, hb, hb1, hb2⟩ := h3 row hrow
      have hbf := List.mem_filter.mp hb
      exact ⟨b, hbf.1, hbf.2, hb1, hb2⟩

/-- Witness for C4 at a single Russian-range state with coordinates and
always-succeeding database oracles. -/
theorem C4_ingestion_counts_witness :
    ((fetchAndStoreRussianAircraft [rusSample] [] (fun _ => true)
        (fun _ => true)).1.stored
      ≤ (fetchAndStoreRussianAircraft [rusSample] [] (fun _ => true)
        (fun _ => true)).1.tracked) ∧
    ∃ ac ∈ mergeAircraft [rusSample] [], isRussianAircraft ac.hex = true ∧
      ac.lat = some (mkPosRow "140aa1" rusSample 10 20).latitude ∧
      ac.lon = some (mkPosRow "140aa1" rusSample 10 20).longitude :=
  ⟨(C4_ingestion_counts [rusSample] [] (fun _ => true) (fun _ => true)).2.2.1,
    (C4_ingestion_counts [rusSample] [] (fun _ => true)
      (fun _ => true)).2.2.2 (mkPosRow "140aa1" rusSample 10 20)
      (by decide)⟩

/-- C7: the radius filter keeps a position iff it is in the input and has
non-null coordinates whose haversine distance from the center is at most
the radius — in particular a sample at distance exactly the radius is
retained, and one strictly beyond it is dropped. -/
theorem C7_geofilter_spec (cLat cLon r : ℚ) (ps : List Position)
    (pos : Position) :
    pos ∈ filterPositions cLat cLon r ps ↔
      pos ∈ ps ∧ ∃ la lo, pos.latitude = some la ∧ pos.longitude = some lo ∧
        haversineDistance (cLat : ℝ) (cLon : ℝ) (la : ℝ) (lo : ℝ)
          ≤ ((r : ℚ) : ℝ) := by
  rw [filterPositions, List.mem_filter]
  constructor
  · rintro ⟨hmem, hp⟩
    refine ⟨hmem, ?_⟩
    cases hla : pos.latitude with
    | none => rw [hla] at hp; simp at hp
    | some la =>
      cases hlo : pos.longitude with
      | none => rw [hla, hlo] at hp; simp at hp
      | some lo =>
        rw [hla, hlo] at hp
        exact ⟨la, lo, rfl, rfl, of_decide_eq_true hp⟩
  · rintro ⟨hmem, la, lo, hla, hlo, hd⟩
    refine ⟨hmem, ?_⟩
    rw [hla, hlo]
    exact decide_eq_true hd

/-- Witness for C7 at the empty position list. -/
theorem C7_geofilter_spec_witness :
    tpos 0 ∈ filterPositions 0 0 1 [] ↔
      tpos 0 ∈ ([] : List Position) ∧
        ∃ la lo, (tpos 0).latitude = some la ∧
          (tpos 0).longitude = some lo ∧
          haversineDistance ((0 : ℚ) : ℝ) ((0 : ℚ) : ℝ) (la : ℝ) (lo : ℝ)
            ≤ ((1 : ℚ) : ℝ) :=
  C7_geofilter_spec 0 0 1 [] (tpos 0)

/-- Every emitted track has at least two positions. -/
theorem getAllTracks_min_two (military : List String)
    (filt : Option (ℚ × ℚ × ℚ)) :
    ∀ (db : List (AircraftRow × List Position)) (t : AircraftTrack),
      t ∈ getAllTracksLast24h military filt db →
        2 ≤ t.positions.length := by
  intro db
  induction db with
  | nil => intro t ht; simp [getAllTracksLast24h] at ht
  | cons e rest ih =>
    intro t ht
    obtain ⟨b, brows⟩ := e
    simp only [getAllTracksLast24h] at ht
    by_cases h2 : 2 ≤ (qualifyingPositions filt brows).length
    · rw [if_pos h2] at ht
      rcases List.mem_cons.mp ht with h | h
      · subst h; exact h2
      · exact ih t h
    · rw [if_neg h2] at ht
      exact ih t ht

/-- Every emitted track's identifier is one of the database's
identifiers. -/
theorem getAllTracks_icao_mem (military : List String)
    (filt : Option (ℚ × ℚ × ℚ)) :
    ∀ (db : List (AircraftRow × List Position)) (t : AircraftTrack),
      t ∈ getAllTracksLast24h military filt db →
        t.icao24 ∈ db.map (fun e => e.1.icao24) := by
  intro db
  induction db with
  | nil => intro t ht; simp [getAllTracksLast24h] at ht
  | cons e rest ih =>
    intro t ht
    obtain ⟨b, brows⟩ := e
    simp only [getAllTracksLast24h] at ht
    by_cases h2 : 2 ≤ (qualifyingPositions filt brows).length
    · rw [if_pos h2] at ht
      rcases List.mem_cons.mp ht with h | h
      · subst h; simp
      · exact List.mem_cons_of_mem _ (ih t h)
    · rw [if_neg h2] at ht
      exact List.mem_cons_of_mem _ (ih t ht)

/-- A database entry with fewer than two qualifying positions yields no
track with its identifier (identifiers assumed distinct, as the distinct
query guarantees). -/
theorem getAllTracks_skip (military : List String)
    (filt : Option (ℚ × ℚ × ℚ)) :
    ∀ (db : List (AircraftRow × List Position)) (ac : AircraftRow)
      (rows : List Position),
      (db.map (fun e => e.1.icao24)).Nodup →
      (ac, rows) ∈ db →
      (qualifyingPositions filt rows).length < 2 →
      ∀ t ∈ getAllTracksLast24h military filt db,
        t.icao24 ≠ ac.icao24 := by
  intro db
  induction db with
  | nil => intro ac rows _ hmem; simp at hmem
  | cons e rest ih =>
    intro ac rows hnodup hmem hfew t ht
    obtain ⟨b, brows⟩ := e
    simp only [List.map_cons, List.nodup_cons] at hnodup
    rcases List.mem_cons.mp hmem with he | hm
    · rw [Prod.mk.injEq] at he
      obtain ⟨hb, hbrows⟩ := he
      subst hb
      subst hbrows
      simp only [getAllTracksLast24h] at ht
      rw [if_neg (Nat.not_le.mpr hfew)] at ht
      intro heq
      have hkey := getAllTracks_icao_mem military filt rest t ht
      rw [heq] at hkey
      exact hnodup.1 hkey
    · simp only [getAllTracksLast24h] at ht
      by_cases h2 : 2 ≤ (qualifyingPositions filt brows).length
      · rw [if_pos h2] at ht
        rcases List.mem_cons.mp ht with h | h
        · subst h
          intro heq
          have hackey : ac.icao24 ∈ rest.map (fun e => e.1.icao24) :=
            List.mem_map.mpr ⟨(ac, rows), hm, rfl⟩
          exact hnodup.1 (by
            rw [show b.icao24 = ac.icao24 from heq]
            exact hackey)
        · exact ih ac rows hnodup.2 hm hfew t h
      · rw [if_neg h2] at ht
        exact ih ac rows hnodup.2 hm hfew t ht

/-- C3: the 24h track query emits only tracks with at least 2 qualifying
positions, and an identifier whose positions reduce to fewer than 2 after
the optional geographic filter produces no track at all. -/
theorem C3_min_samples_spec (military : List String)
    (filt : Option (ℚ × ℚ × ℚ))
    (db : List (AircraftRow × List Position)) (ac : AircraftRow)
    (rows : List Position)
    (hnodup : (db.map (fun e => e.1.icao24)).Nodup)
    (hmem : (ac, rows) ∈ db)
    (hfew : (qualifyingPositions filt rows).length < 2) :
    (∀ t ∈ getAllTracksLast24h military filt db,
      2 ≤ t.positions.length) ∧
    (∀ t ∈ getAllTracksLast24h military filt db,
      t.icao24 ≠ ac.icao24) :=
  ⟨fun t ht => getAllTracks_min_two military filt db t ht,
    getAllTracks_skip military filt db ac rows hnodup hmem hfew⟩

/-- Witness for C3 at a concrete two-aircraft database where the second
aircraft has a single position. -/
theorem C3_min_samples_spec_witness :
    ((dbSample.map (fun e => e.1.icao24)).Nodup ∧
      (rowTwo, [tpos 0]) ∈ dbSample ∧
      (qualifyingPositions none [tpos 0]).length < 2) ∧
    trackSample ∈ getAllTracksLast24h [] none dbSample ∧
    2 ≤ trackSample.positions.length ∧
    trackSample.icao24 ≠ rowTwo.icao24 := by
  have hmemtrack : trackSample ∈ getAllTracksLast24h [] none dbSample := by
    norm_num [getAllTracksLast24h, qualifyingPositions, dbSample,
      trackSample, rowOne, rowTwo, splitIntoSegments, splitLoop,
      finalizeSegments, gapSecondsBetween, MAX_POSITION_GAP_SECONDS,
      tpos, isMilitary]
  refine ⟨⟨by decide, by decide, by decide⟩, hmemtrack, ?_, ?_⟩
  · exact (C3_min_samples_spec [] none dbSample rowTwo [tpos 0]
      (by decide) (by decide) (by decide)).1 trackSample hmemtrack
  · exact (C3_min_samples_spec [] none dbSample rowTwo [tpos 0]
      (by decide) (by decide) (by decide)).2 trackSample hmemtrack

end AirTracker





